import Mathlib

/-!
Shallow embedding of the core of `anilist-amq-tool.py`: the deterministic
filtered sampling engine (`generate_sample`, `Commands.sample_set`,
`Commands._create_filter`), the retry loop of the query client
(`API.retry_request`) and the rate limiter (`RateLimiter.limit`).

Python runtime failures (TypeError on comparing `None` with an integer,
KeyError on a missing dict key, IndexError, NameError) are modelled with an
explicit error monad `PyM`.  Machine reals of the Python sources are modelled
with `ℚ` (every comparison the claims exercise is on exact values).
-/

/-- Python exceptions that the embedded code can raise. `windowWaitNotModelled`
stands for the wall-clock polling loop of `RateLimiter.window_limit`, whose
termination depends on real time passing; no theorem below exercises it. -/
inductive PyError where
  | typeError
  | keyError
  | indexError
  | nameError
  | windowWaitNotModelled
deriving DecidableEq, Repr

/-- Computations that may raise a Python exception. -/
abbrev PyM (α : Type) := Except PyError α

/-- Seasons, as the keys of the `season_order` dict of the source. -/
inductive Season where
  | WINTER
  | SPRING
  | SUMMER
  | FALL
deriving DecidableEq, Repr

/-- The `season_order` dict (source lines 13-18): WINTER=0, SPRING=1,
SUMMER=2, FALL=3. -/
def season_order : Season → ℕ
  | .WINTER => 0
  | .SPRING => 1
  | .SUMMER => 2
  | .FALL => 3

/-- A catalog entry (the media dicts the tool manipulates), restricted to the
fields the filter builder and the sampler read.  `seasonYear = none` and
`season = none` model a dict without that key (respectively with a null that
the tool never stores).  `popularity_percent` is the annotation `_load_data`
writes onto every catalog entry. -/
structure Media where
  id : ℕ
  seasonYear : Option ℤ := none
  season : Option Season := none
  popularity : ℤ := 0
  popularity_percent : ℚ := 0
  genres : List String := []
  tags : List String := []
deriving DecidableEq, Repr

/-- The optional keyword arguments of `Commands._create_filter`
(source lines 848-859). -/
structure FilterOpts where
  min_year : Option ℤ := none
  max_year : Option ℤ := none
  min_season : Option Season := none
  max_season : Option Season := none
  min_popularity : Option ℚ := none
  max_popularity : Option ℚ := none
  min_popularity_percent : Option ℚ := none
  max_popularity_percent : Option ℚ := none
  genres : Option (List String) := none
  tags : Option (List String) := none

/-- The list comprehension `[f(m) for f in filters]` (source line 915): every
filter is evaluated, in order, and the first raised exception propagates. -/
def eval_filters : List (Media → PyM Bool) → Media → PyM (List Bool)
  | [], _ => .ok []
  | f :: fs, m => (f m).bind fun b => (eval_filters fs m).map fun bs => b :: bs

/-- `Commands._create_filter` (source lines 848-916).  `_media` is the
`self._media` dict built by `_load_data` (id → catalog entry); indexing it at
an absent id raises KeyError.  Comparing a missing `seasonYear` (a Python
`None`) with an int raises TypeError.  The season lambdas mirror the walrus
chain `("season" in m) and (o := season_order[m["season"]]) and (o >= bound)`:
its value is falsy whenever the ordinal is 0, and `max_season` compares with
`>=` exactly as `min_season` does (source lines 874-882), just as
`f_max_popularity` compares with `>=` (source line 889).  The returned
predicate is `m is not None and all([f(m) for f in filters])`. -/
def create_filter (_media : ℕ → Option Media) (o : FilterOpts) :
    Option Media → PyM Bool :=
  let filters : List (Media → PyM Bool) :=
    (match o.min_year with
     | none => []
     | some min_year => [fun m =>
        match m.seasonYear with
        | none => .error .typeError
        | some y => .ok (decide (y ≥ min_year))]) ++
    (match o.max_year with
     | none => []
     | some max_year => [fun m =>
        match m.seasonYear with
        | none => .error .typeError
        | some y => .ok (decide (y ≤ max_year))]) ++
    (match o.min_season with
     | none => []
     | some min_season =>
       let min_season_order := season_order min_season
       [fun m => .ok (
          match m.season with
          | none => false
          | some s =>
            decide (season_order s ≠ 0) && decide (season_order s ≥ min_season_order))]) ++
    (match o.max_season with
     | none => []
     | some max_season =>
       let max_season_order := season_order max_season
       [fun m => .ok (
          match m.season with
          | none => false
          | some s =>
            decide (season_order s ≠ 0) && decide (season_order s ≥ max_season_order))]) ++
    (match o.min_popularity with
     | none => []
     | some min_popularity =>
       [fun m => .ok (decide ((m.popularity : ℚ) ≥ min_popularity))]) ++
    (match o.max_popularity with
     | none => []
     | some max_popularity =>
       [fun m => .ok (decide ((m.popularity : ℚ) ≥ max_popularity))]) ++
    (match o.min_popularity_percent with
     | none => []
     | some p => [fun m =>
        match _media m.id with
        | none => .error .keyError
        | some cm => .ok (decide (cm.popularity_percent ≥ p))]) ++
    (match o.max_popularity_percent with
     | none => []
     | some p => [fun m =>
        match _media m.id with
        | none => .error .keyError
        | some cm => .ok (decide (cm.popularity_percent ≤ p))]) ++
    (match o.genres with
     | none => []
     | some gs =>
       let genres := gs.map String.toLower
       [fun m => .ok (m.genres.any (fun g => genres.contains g.toLower))]) ++
    (match o.tags with
     | none => []
     | some ts =>
       let tags := ts.map String.toLower
       [fun m => .ok (m.tags.any (fun t => tags.contains t.toLower))])
  fun om =>
    match om with
    | none => .ok false
    | some m => (eval_filters filters m).map (fun bs => bs.all id)

/-- A deterministic pseudo-random generator state, modelling the state of the
global Mersenne Twister of the `random` module after `random.seed(s)` and
after each draw.  The exact stream is irrelevant to every claim; what matters
is that it is a deterministic function of the seed. -/
def lcgNext (s : ℕ) : ℕ :=
  (6364136223846793005 * s + 1442695040888963407) % 18446744073709551616

/-- State of the generator right after `random.seed(s)`. -/
def seedState (s : ℕ) : ℕ := lcgNext s

/-- Recursive worker of `randPerm`: draw the element at the pseudo-random
index, remove it, recurse on the rest.  The fuel argument (always the length
of the remaining list) makes the recursion structural. -/
def randPermFuel {α : Type} : ℕ → ℕ → List α → List α
  | 0, _, _ => []
  | fuel + 1, g, l =>
    if h : l.length = 0 then []
    else
      have hi : g % l.length < l.length := Nat.mod_lt _ (Nat.pos_of_ne_zero h)
      l.get ⟨g % l.length, hi⟩ :: randPermFuel fuel (lcgNext g) (l.eraseIdx (g % l.length))

/-- Model of `random.sample(data, k=len(data))` (source line 48): a full
random permutation of `data`, a deterministic function of the generator
state. -/
def randPerm {α : Type} (g : ℕ) (l : List α) : List α :=
  randPermFuel l.length g l

/-- The walk of `generate_sample` over the shuffled list (source lines 49-59):
skip entries failing the filter, skip the first `offset` matches, collect
matches until the sample reaches `size` (checked after each append, so a
non-positive `size` still collects one match).  `skipped` and the current
`sample` are the loop state. -/
def sampleLoop {α : Type} (filt : Option (α → PyM Bool)) (size offset : ℤ) :
    List α → ℤ → List α → PyM (List α)
  | [], _, sample => .ok sample
  | v :: rest, skipped, sample =>
    (match filt with
     | none => Except.ok true
     | some f => f v).bind fun b =>
      if b then
        if skipped ≥ offset then
          let sample' := sample ++ [v]
          if (sample'.length : ℤ) ≥ size then .ok sample'
          else sampleLoop filt size offset rest skipped sample'
        else sampleLoop filt size offset rest (skipped + 1) sample
      else sampleLoop filt size offset rest skipped sample

/-- `generate_sample` (source lines 30-59).  `g` is the ambient generator
state; a supplied seed replaces it by `seedState s` (`random.seed(seed)`),
an absent seed leaves the ambient state in use. -/
def generate_sample {α : Type} (g : ℕ) (data : List α)
    (filt : Option (α → PyM Bool)) (size : ℤ) (seed : Option ℕ)
    (offset : ℤ) : PyM (List α) :=
  let g' := match seed with
    | some s => seedState s
    | none => g
  sampleLoop filt size offset (randPerm g' data) 0 []

/-- The dict comprehension `{m["id"]: m for m in source}` of `sample_set`
(source lines 964-967): for duplicate ids the last entry wins. -/
def sample_dict (source : List Media) : ℕ → Option Media :=
  fun i => source.reverse.find? (fun m => m.id == i)

/-- The list `[source.get(i, None) for i in range(0, 1000000)]` of
`sample_set` (source lines 968-971): a dense index space of the fixed size
1000000, with `none` holes at indices that are not an id of `source`. -/
def sample_data (source : List Media) : List (Option Media) :=
  (List.range 1000000).map (sample_dict source)

/-- `Commands.sample_set` (source lines 918-980), up to the store of the
result under the target name (the store is not sampled logic).  `_media` is
the loaded catalog dict that the percentile filters consult. -/
def sample_set (_media : ℕ → Option Media) (g : ℕ) (source : List Media)
    (size offset : ℤ) (seed : Option ℕ) (o : FilterOpts) :
    PyM (List (Option Media)) :=
  generate_sample g (sample_data source) (some (create_filter _media o))
    size seed offset

/-- Unwrap a successful list result; a raised exception yields `[]`. -/
def okList {α : Type} : PyM (List α) → List α
  | .ok l => l
  | .error _ => []

/-- An HTTP response as `retry_request` reads it: the status code, the
optional `errors` array of the parsed JSON body (`none` models an absent
key), the parsed body itself (abstracted to a string) and the raw text. -/
structure HttpResponse where
  status : ℕ
  errors : Option (List String) := none
  body : String := ""
  text : String := ""
deriving DecidableEq, Repr

/-- Outcome of `API.retry_request`: a returned parsed body, the fatal
"Error executing query" raised on an application-level error (carrying the
first error message), the fatal "Request failed" raised after the attempt
budget (carrying the last status and body text), or an uncaught Python
error (IndexError on `data["errors"][0]` with an empty array, NameError on
`status` when the loop never ran). -/
inductive ReqResult where
  | success : String → ReqResult
  | queryError : String → ReqResult
  | requestFailed : ℕ → String → ReqResult
  | pythonError : PyError → ReqResult
deriving DecidableEq, Repr

/-- The attempt loop of `API.retry_request` (source lines 236-265).  `resp i`
is the response the server returns to the i-th request (0-based); `count` is
the attempt budget; `i` is the index of the next attempt.  A 429 and any
other non-200 status differ only in what they log: both consume one attempt
and continue.  The pair returned is the outcome and the total number of
requests issued.  On a 200 whose body has a non-empty `errors` array the
fatal query error is raised at once with the first message. -/
def retry_go (resp : ℕ → HttpResponse) (count : ℕ) (i : ℕ) : ReqResult × ℕ :=
  if _h : i < count then
    if (resp i).status = 200 then
      match (resp i).errors with
      | none => (.success (resp i).body, i + 1)
      | some [] => (.pythonError .indexError, i + 1)
      | some (e :: _) => (.queryError e, i + 1)
    else retry_go resp count (i + 1)
  else if count = 0 then (.pythonError .nameError, i)
  else (.requestFailed (resp (count - 1)).status (resp (count - 1)).text, i)
termination_by count - i

/-- `API.retry_request` with its attempt budget (default 10, and `do_query`
passes 10 explicitly). -/
def retry_request (resp : ℕ → HttpResponse) (count : ℕ) :
    ReqResult × ℕ :=
  retry_go resp count 0

/-- The rate limiter state: the local sliding window of request timestamps
and the cached `X-RateLimit-*` and `Retry-After` header values (`none` is
"unknown").  Times and durations are in seconds. -/
structure RateLimiter where
  timestamps : List ℚ := []
  window : ℚ := 60
  count : Option ℚ := none
  x_ratelimit_reset : Option ℤ := none
  x_ratelimit_remaining : Option ℤ := none
  x_ratelimit_limit : Option ℤ := none
  x_ratelimit_retry_after : Option ℤ := none
  cooldown : Option ℚ := none
deriving DecidableEq, Repr

/-- `RateLimiter.__init__` (source lines 73-80).  Note that it assigns the
`cooldown` parameter unconditionally, so the default `cooldown=None`
overwrites the class attribute `cooldown = 60.01`. -/
def RateLimiter.init (window_seconds : ℚ) (count : Option ℚ)
    (cooldown : Option ℚ) : RateLimiter :=
  { timestamps := [], window := window_seconds, count := count,
    cooldown := cooldown }

/-- `RateLimiter.update_timestamps` (source lines 82-84): drop timestamps
that left the trailing window. -/
def RateLimiter.update_timestamps (now : ℚ) (rl : RateLimiter) : RateLimiter :=
  { rl with timestamps := rl.timestamps.filter (fun t => decide (t > now - rl.window)) }

/-- `RateLimiter.reset` (source lines 118-122): forget every cached server
header value. -/
def RateLimiter.resetFields (rl : RateLimiter) : RateLimiter :=
  { rl with x_ratelimit_limit := none, x_ratelimit_remaining := none,
            x_ratelimit_reset := none, x_ratelimit_retry_after := none }

/-- `RateLimiter.window_limit` (source lines 109-116).  With no configured
count the layer only prunes timestamps.  With a configured count, when fewer
than `count` timestamps remain in the window the loop body never runs and a
new timestamp is recorded; otherwise the code polls in 0.1s sleeps until
enough timestamps age out of the window, a wait whose progress lives in
wall-clock time and which is represented here by an explicit marker that no
statement below reaches. -/
def RateLimiter.window_limit (now : ℚ) (rl : RateLimiter) : PyM RateLimiter :=
  let rl := rl.update_timestamps now
  match rl.count with
  | none => .ok rl
  | some c =>
    if (rl.timestamps.length : ℚ) < c then
      .ok { rl with timestamps := rl.timestamps ++ [now] }
    else .error .windowWaitNotModelled

/-- `RateLimiter.limit` (source lines 124-153).  The second component of the
result lists the durations passed to `time.sleep` for server-directed waits,
in order.  A known retry-after (else a known reset time) is honored with a
0.1s margin and the cached header fields are cleared, after which the
remaining-quota check sees the cleared (`none`) value and returns.  With a
known remaining quota of less than 1 the code sleeps for `self.cooldown` and
then clears the fields; `time.sleep(None)` raises TypeError. -/
def RateLimiter.limit (now : ℚ) (rl : RateLimiter) :
    PyM (RateLimiter × List ℚ) :=
  (rl.window_limit now).bind fun rl0 =>
  let step1 : RateLimiter × List ℚ :=
    match rl0.x_ratelimit_retry_after with
    | some ra => (rl0.resetFields, [(ra : ℚ) + 1/10])
    | none =>
      match rl0.x_ratelimit_reset with
      | some rt => (rl0.resetFields, [(rt : ℚ) - now + 1/10])
      | none => (rl0, [])
  let rl1 := step1.1
  match rl1.x_ratelimit_remaining with
  | none => .ok (rl1, step1.2)
  | some r =>
    if r ≥ 1 then .ok (rl1, step1.2)
    else
      match rl1.cooldown with
      | none => .error .typeError
      | some c => .ok (rl1.resetFields, step1.2 ++ [c])

/-- The rate limiter exactly as the only construction site in the program
builds it: `API.__init__` calls `RateLimiter()` (source line 228), so the
window is 60 seconds, no window count is configured, and `cooldown` is
`None`. -/
def api_ratelimiter : RateLimiter := RateLimiter.init 60 none none

/-- A source entry whose identifier equals the fixed bound 1000000 of the
index space that `sample_set` builds. -/
def mBig : Media := { id := 1000000 }

/-- A simulated server whose every response is a transient failure. -/
def respAllFail : ℕ → HttpResponse := fun _ => { status := 500, text := "boom" }

/-! ## Auxiliary lemmas about the sampler -/

/-- The sampler walk specialised to an exception-free predicate. -/
def sampleLoopP {α : Type} (p : α → Bool) (size offset : ℤ) :
    List α → ℤ → List α → List α
  | [], _, sample => sample
  | v :: rest, skipped, sample =>
    if p v then
      if skipped ≥ offset then
        let sample' := sample ++ [v]
        if (sample'.length : ℤ) ≥ size then sample'
        else sampleLoopP p size offset rest skipped sample'
      else sampleLoopP p size offset rest (skipped + 1) sample
    else sampleLoopP p size offset rest skipped sample

theorem sampleLoop_pure {α : Type} (p : α → Bool) (f : α → PyM Bool)
    (hf : ∀ v, f v = .ok (p v)) (size offset : ℤ) :
    ∀ (l : List α) (skipped : ℤ) (sample : List α),
      sampleLoop (some f) size offset l skipped sample
        = .ok (sampleLoopP p size offset l skipped sample) := by
  intro l
  induction l with
  | nil => intro skipped sample; rfl
  | cons v rest ih =>
    intro skipped sample
    simp only [sampleLoop, sampleLoopP, hf v, Except.bind]
    cases hp : p v with
    | false => simp [ih]
    | true =>
      simp only [if_true]
      split_ifs <;> first | rfl | exact ih _ _

theorem randPermFuel_perm {α : Type} :
    ∀ (fuel g : ℕ) (l : List α), l.length ≤ fuel →
      (randPermFuel fuel g l).Perm l := by
  intro fuel
  induction fuel with
  | zero =>
    intro g l hlen
    obtain rfl : l = [] := List.length_eq_zero.mp (by omega)
    exact List.Perm.refl []
  | succ n ih =>
    intro g l hlen
    rw [randPermFuel]
    by_cases h : l.length = 0
    · rw [dif_pos h]
      obtain rfl : l = [] := List.length_eq_zero.mp h
      exact List.Perm.refl []
    · rw [dif_neg h]
      have hi : g % l.length < l.length := Nat.mod_lt _ (Nat.pos_of_ne_zero h)
      have hl' : List.take (g % l.length) l ++ l[g % l.length] :: List.drop (g % l.length + 1) l = l := by
        conv_rhs => rw [← List.take_append_drop (g % l.length) l]
        rw [List.drop_eq_getElem_cons hi]
      have hmid : (l[g % l.length] :: (List.take (g % l.length) l ++ List.drop (g % l.length + 1) l)).Perm l := by
        conv_rhs => rw [← hl']
        exact List.perm_middle.symm
      have herase : (l.eraseIdx (g % l.length)).length ≤ n := by
        rw [List.length_eraseIdx, if_pos hi]
        omega
      have hrec := ih (lcgNext g) (l.eraseIdx (g % l.length)) herase
      rw [List.eraseIdx_eq_take_drop_succ] at hrec
      simpa [List.get_eq_getElem, List.eraseIdx_eq_take_drop_succ] using
        ((hrec.cons (l[g % l.length])).trans hmid)

theorem randPerm_perm {α : Type} (g : ℕ) (l : List α) : (randPerm g l).Perm l :=
  randPermFuel_perm l.length g l (Nat.le_refl _)

theorem sampleLoopP_collect {α : Type} (p : α → Bool) (size offset : ℤ)
    (skipped : ℤ) (hs : skipped ≥ offset) :
    ∀ (l : List α) (sample : List α), (sample.length : ℤ) < size →
      sampleLoopP p size offset l skipped sample
        = sample ++ (l.filter p).take (size.toNat - sample.length) := by
  intro l
  induction l with
  | nil => intro sample _; simp [sampleLoopP]
  | cons v rest ih =>
    intro sample hlen
    rw [sampleLoopP]
    cases hp : p v with
    | false =>
      rw [if_neg (by simp [hp]), List.filter_cons_of_neg (by simp [hp])]
      exact ih sample hlen
    | true =>
      rw [if_pos (by simp [hp]), if_pos hs, List.filter_cons_of_pos (by simp [hp])]
      by_cases hl : ((sample ++ [v]).length : ℤ) ≥ size
      · rw [if_pos hl]
        have hn : size.toNat - sample.length = 1 := by
          simp only [List.length_append, List.length_cons, List.length_nil] at hl
          omega
        rw [hn, List.take_succ_cons, List.take_zero]
      · rw [if_neg hl]
        have hlen' : (((sample ++ [v]).length : ℕ) : ℤ) < size := by
          simp only [List.length_append, List.length_cons, List.length_nil] at hl ⊢
          omega
        rw [ih (sample ++ [v]) hlen']
        obtain ⟨k, hk⟩ : ∃ k, size.toNat - sample.length = k + 1 :=
          ⟨size.toNat - sample.length - 1, by omega⟩
        have hk' : size.toNat - (sample ++ [v]).length = k := by
          simp only [List.length_append, List.length_cons, List.length_nil]
          omega
        rw [hk, hk', List.take_succ_cons, List.append_assoc, List.singleton_append]

theorem sampleLoopP_skip {α : Type} (p : α → Bool) (size offset : ℤ)
    (hsize : 1 ≤ size) :
    ∀ (l : List α) (skipped : ℤ), skipped < offset →
      sampleLoopP p size offset l skipped []
        = ((l.filter p).drop (offset - skipped).toNat).take size.toNat := by
  intro l
  induction l with
  | nil => intro skipped _; simp [sampleLoopP]
  | cons v rest ih =>
    intro skipped hso
    rw [sampleLoopP]
    cases hp : p v with
    | false =>
      rw [if_neg (by simp [hp]), List.filter_cons_of_neg (by simp [hp])]
      exact ih skipped hso
    | true =>
      rw [if_pos (by simp [hp]), if_neg (by omega), List.filter_cons_of_pos (by simp [hp])]
      by_cases h2 : skipped + 1 < offset
      · rw [ih (skipped + 1) h2]
        obtain ⟨k, hk⟩ : ∃ k, (offset - skipped).toNat = k + 1 :=
          ⟨(offset - (skipped + 1)).toNat, by omega⟩
        have hk' : (offset - (skipped + 1)).toNat = k := by omega
        rw [hk, hk', List.drop_succ_cons]
      · have heq : offset = skipped + 1 := by omega
        have hcollect := sampleLoopP_collect p size offset (skipped + 1)
          (by omega) rest [] (by simpa using hsize)
        rw [hcollect]
        have h1 : (offset - skipped).toNat = 1 := by omega
        rw [h1, List.drop_succ_cons, List.drop_zero]
        simp

theorem sampleLoopP_eq_take_drop {α : Type} (p : α → Bool) (size offset : ℤ)
    (hsize : 1 ≤ size) (l : List α) :
    sampleLoopP p size offset l 0 []
      = ((l.filter p).drop offset.toNat).take size.toNat := by
  by_cases h : 0 < offset
  · exact (sampleLoopP_skip p size offset hsize l 0 (by omega)).trans
      (by rw [show (offset - 0).toNat = offset.toNat by omega])
  · rw [sampleLoopP_collect p size offset 0 (by omega) l [] (by simpa using hsize)]
    rw [show offset.toNat = 0 by omega]
    simp

theorem sampleLoop_subset {α : Type} (filt : Option (α → PyM Bool))
    (size offset : ℤ) :
    ∀ (l : List α) (skipped : ℤ) (acc out : List α),
      sampleLoop filt size offset l skipped acc = .ok out →
      ∀ x, x ∈ out → x ∈ acc ∨ x ∈ l := by
  intro l
  induction l with
  | nil =>
    intro skipped acc out h x hx
    simp only [sampleLoop, Except.ok.injEq] at h
    exact Or.inl (h ▸ hx)
  | cons v rest ih =>
    intro skipped acc out h x hx
    have htrue :
        (if skipped ≥ offset then
           if ((acc ++ [v]).length : ℤ) ≥ size then Except.ok (acc ++ [v])
           else sampleLoop filt size offset rest skipped (acc ++ [v])
         else sampleLoop filt size offset rest (skipped + 1) acc) = Except.ok out →
        x ∈ acc ∨ x ∈ v :: rest := by
      intro h'
      by_cases hs : skipped ≥ offset
      · rw [if_pos hs] at h'
        by_cases hl : ((acc ++ [v]).length : ℤ) ≥ size
        · rw [if_pos hl] at h'
          obtain rfl : acc ++ [v] = out := Except.ok.inj h'
          rcases List.mem_append.mp hx with h'' | h''
          · exact Or.inl h''
          · simp only [List.mem_singleton] at h''
            exact Or.inr (h'' ▸ List.mem_cons_self v rest)
        · rw [if_neg hl] at h'
          rcases ih skipped (acc ++ [v]) out h' x hx with h'' | h''
          · rcases List.mem_append.mp h'' with h3 | h3
            · exact Or.inl h3
            · simp only [List.mem_singleton] at h3
              exact Or.inr (h3 ▸ List.mem_cons_self v rest)
          · exact Or.inr (List.mem_cons_of_mem v h'')
      · rw [if_neg hs] at h'
        rcases ih (skipped + 1) acc out h' x hx with h'' | h''
        · exact Or.inl h''
        · exact Or.inr (List.mem_cons_of_mem v h'')
    cases filt with
    | none =>
      have hstep : sampleLoop none size offset (v :: rest) skipped acc
          = (if skipped ≥ offset then
               if ((acc ++ [v]).length : ℤ) ≥ size then Except.ok (acc ++ [v])
               else sampleLoop none size offset rest skipped (acc ++ [v])
             else sampleLoop none size offset rest (skipped + 1) acc) := by
        simp only [sampleLoop, Except.bind, eq_self_iff_true, if_true]
      rw [hstep] at h
      exact htrue h
    | some f =>
      rcases hf : f v with e | b
      · exfalso
        have hstep : sampleLoop (some f) size offset (v :: rest) skipped acc
            = Except.error e := by
          simp only [sampleLoop, hf, Except.bind]
        rw [hstep] at h
        cases h
      · cases b with
        | false =>
          have hstep : sampleLoop (some f) size offset (v :: rest) skipped acc
              = sampleLoop (some f) size offset rest skipped acc := by
            simp only [sampleLoop, hf, Except.bind, Bool.false_eq_true, if_false]
          rw [hstep] at h
          rcases ih skipped acc out h x hx with h'' | h''
          · exact Or.inl h''
          · exact Or.inr (List.mem_cons_of_mem v h'')
        | true =>
          have hstep : sampleLoop (some f) size offset (v :: rest) skipped acc
              = (if skipped ≥ offset then
                   if ((acc ++ [v]).length : ℤ) ≥ size then Except.ok (acc ++ [v])
                   else sampleLoop (some f) size offset rest skipped (acc ++ [v])
                 else sampleLoop (some f) size offset rest (skipped + 1) acc) := by
            simp only [sampleLoop, hf, Except.bind, eq_self_iff_true, if_true]
          rw [hstep] at h
          exact htrue h

theorem generate_sample_pure {α : Type} (g : ℕ) (data : List α) (p : α → Bool)
    (f : α → PyM Bool) (hf : ∀ v, f v = .ok (p v)) (size : ℤ)
    (seed : Option ℕ) (offset : ℤ) (hsize : 1 ≤ size) :
    generate_sample g data (some f) size seed offset
      = .ok ((((randPerm (match seed with
          | some s => seedState s
          | none => g) data).filter p).drop offset.toNat).take size.toNat) := by
  unfold generate_sample
  rw [sampleLoop_pure p f hf, sampleLoopP_eq_take_drop p size offset hsize]

theorem take_drop_disjoint {α : Type} (m : List α) (hm : m.Nodup) (a n n' : ℕ) :
    ∀ x, x ∈ (m.drop a).take n → x ∉ (m.drop (a + n)).take n' := by
  intro x hx1 hx2
  have hda : (m.drop a).Nodup := (List.drop_sublist a m).nodup hm
  rw [← List.take_append_drop n (m.drop a)] at hda
  have hdisj := (List.nodup_append.mp hda).2.2
  have hx2' : x ∈ (m.drop a).drop n := by
    rw [List.drop_drop]
    exact List.take_subset n' _ hx2
  exact hdisj hx1 hx2'

/-! ## Claim theorems -/

/-- C1: the claim states that an option set containing only `max_popularity=P`
accepts an entry iff its popularity is at most P.  The code compares with
`>=` (source line 889), the same direction as `min_popularity`: the combined
predicate rejects popularity 5 under `max_popularity=10` and accepts
popularity 20, so `max_popularity` behaves as a lower bound, contradicting
the claim (and the evident intent of the parameter name). -/
theorem max_popularity_filter_uses_ge :
    create_filter (fun _ => none) { max_popularity := some 10 }
      (some { id := 1, popularity := 5 }) = .ok false
    ∧ create_filter (fun _ => none) { max_popularity := some 10 }
      (some { id := 2, popularity := 20 }) = .ok true := by
  constructor <;> rfl

/-- C7: the claim states that `min_season=WINTER` accepts a WINTER entry and
that `max_season=S` accepts iff the ordinal is at most that of S.  In the
code the walrus chain `("season" in m) and (o := season_order[m["season"]])
and (o >= bound)` is falsy whenever the ordinal is 0, so a WINTER entry never
matches any season bound, and `max_season` compares with `>=` (source lines
874-882): an entry with season FALL (ordinal 3) is accepted under
`max_season=SPRING` (ordinal 1). -/
theorem season_filter_winter_and_max_direction_bug :
    create_filter (fun _ => none) { min_season := some .WINTER }
      (some { id := 3, season := some .WINTER }) = .ok false
    ∧ create_filter (fun _ => none) { max_season := some .SPRING }
      (some { id := 4, season := some .FALL }) = .ok true := by
  constructor <;> rfl

/-- C8 counterexample: the claim states that a percentile-bounded predicate
evaluates to false on an entry whose id is not in the loaded catalog, rather
than raising an error.  The code indexes `self._media[m["id"]]` (source
lines 893 and 898), which raises KeyError for an absent id: on an entry with
id 42 and an empty catalog the predicate raises instead of returning
false. -/
theorem percentile_filter_raises_keyerror :
    create_filter (fun _ => none) { min_popularity_percent := some 50 }
      (some { id := 42 }) = .error .keyError := by
  rfl

/-- C8 amended: for every entry whose id is absent from the loaded catalog, a
predicate built from `min_popularity_percent` or `max_popularity_percent`
raises KeyError when evaluated on that entry; in particular it never returns
true, so the entry indeed cannot match, but by an exception rather than by a
conservative `false`. -/
theorem percentile_filter_error_outside_catalog (_media : ℕ → Option Media)
    (m : Media) (p : ℚ) (h : _media m.id = none) :
    create_filter _media { min_popularity_percent := some p } (some m)
      = .error .keyError
    ∧ create_filter _media { max_popularity_percent := some p } (some m)
      = .error .keyError := by
  constructor <;> simp [create_filter, eval_filters, h, Except.bind, Except.map]

theorem percentile_filter_error_outside_catalog_witness :
    create_filter (fun _ => none) { min_popularity_percent := some 50 }
      (some { id := 7 }) = .error .keyError
    ∧ create_filter (fun _ => none) { max_popularity_percent := some 50 }
      (some { id := 7 }) = .error .keyError :=
  percentile_filter_error_outside_catalog (fun _ => none) { id := 7 } 50 rfl

/-- C10: for every entry whose `seasonYear` is missing, a predicate built
from an option set containing `min_year` or `max_year` raises TypeError when
evaluated on the entry (the year comparisons are total only on entries whose
release year is an integer), while a season bound on an entry without a
season field returns false without an error — only the season bounds treat a
missing field conservatively. -/
theorem year_filter_raises_on_missing_year (_media : ℕ → Option Media)
    (m : Media) (o : FilterOpts) (s : Season) :
    (m.seasonYear = none → o.min_year ≠ none ∨ o.max_year ≠ none →
      create_filter _media o (some m) = .error .typeError)
    ∧ (m.season = none →
      create_filter _media { min_season := some s } (some m) = .ok false
      ∧ create_filter _media { max_season := some s } (some m) = .ok false) := by
  constructor
  · intro hy ho
    rcases o with ⟨my, xy, f3, f4, f5, f6, f7, f8, f9, f10⟩
    cases my with
    | some y => simp [create_filter, eval_filters, hy, Except.bind, Except.map]
    | none =>
      cases xy with
      | some y => simp [create_filter, eval_filters, hy, Except.bind, Except.map]
      | none => simp at ho
  · intro hs
    constructor <;>
      simp [create_filter, eval_filters, hs, Except.bind, Except.map]

theorem year_filter_raises_on_missing_year_witness :
    create_filter (fun _ => none) { min_year := some 2000 } (some { id := 9 })
      = .error .typeError
    ∧ create_filter (fun _ => none) { min_season := some Season.SPRING }
      (some { id := 9 }) = .ok false :=
  ⟨(year_filter_raises_on_missing_year (fun _ => none) { id := 9 }
      { min_year := some 2000 } Season.SPRING).1 rfl (Or.inl (by decide)),
   ((year_filter_raises_on_missing_year (fun _ => none) { id := 9 }
      { min_year := some 2000 } Season.SPRING).2 rfl).1⟩

/-- C3: with a supplied seed, `generate_sample` is a function of its
arguments alone — the ambient generator state (the only mutable input of the
Python code, replaced by `random.seed(seed)` when a seed is given) does not
influence the result, so two invocations with identical arguments return
identical sequences. -/
theorem generate_sample_deterministic_for_seed {α : Type} (g1 g2 : ℕ)
    (data : List α) (filt : Option (α → PyM Bool)) (size offset : ℤ)
    (s : ℕ) :
    generate_sample g1 data filt size (some s) offset
      = generate_sample g2 data filt size (some s) offset := rfl

/-- C9: the claim states that with remaining-quota known and zero (and no
retry-after or reset time) `limit` blocks for the configured cooldown and
clears the server fields, and that this holds for the limiter as the query
client constructs it.  `API.__init__` builds `RateLimiter()` whose
constructor sets `cooldown = None` (overwriting the class attribute 60.01),
so in that state the code reaches `time.sleep(None)` and raises TypeError
(first conjunct).  With a configured cooldown the claimed behavior is what
the code does (second conjunct), and a known positive remaining quota causes
no server-directed wait (third conjunct). -/
theorem ratelimiter_cooldown_none_typeerror :
    (RateLimiter.limit 0 { api_ratelimiter with x_ratelimit_remaining := some 0 }
      = .error .typeError)
    ∧ (∀ c : ℚ, RateLimiter.limit 0
        { api_ratelimiter with x_ratelimit_remaining := some 0, cooldown := some c }
        = .ok (RateLimiter.resetFields
            { api_ratelimiter with x_ratelimit_remaining := some 0, cooldown := some c },
            [c]))
    ∧ (∀ r : ℕ, RateLimiter.limit 0
        { api_ratelimiter with x_ratelimit_remaining := some ((r : ℤ) + 1) }
        = .ok ({ api_ratelimiter with x_ratelimit_remaining := some ((r : ℤ) + 1) }, [])) := by
  refine ⟨rfl, fun c => rfl, fun r => ?_⟩
  simp only [RateLimiter.limit, RateLimiter.window_limit, RateLimiter.update_timestamps,
    api_ratelimiter, RateLimiter.init, Except.bind]
  rw [if_pos (by omega : ((r : ℤ) + 1) ≥ 1)]
  rfl

/-- C5 counterexample: the claim states that for every size the result length
is `min(size, max(0, M - offset))`.  With `size = 0` the loop appends the
first match and only then compares the sample length against `size`
(source lines 54-56), so a single-element source with an always-true
predicate yields a sample of length 1 where the claimed formula yields 0. -/
theorem sample_length_formula_fails_at_size_zero :
    okList (generate_sample 0 [5] (some (fun _ => Except.ok true)) 0 (some 0) 0) = [5]
    ∧ ¬ (((okList (generate_sample 0 [5] (some (fun _ => Except.ok true)) 0 (some 0) 0)).length : ℤ)
        = min 0 (max 0 ((([5] : List ℕ).countP (fun _ => true) : ℤ) - 0))) := by
  constructor
  · rfl
  · decide

/-- C5 amended: for every source, exception-free predicate, seed, size at
least 1 and offset at least 0, the sample length is exactly
`min(size, max(0, M - offset))` where M is the number of source entries
satisfying the predicate; in particular an empty or fully-filtered-out
source yields an empty sequence, and no error is raised. -/
theorem sample_length_formula {α : Type} (g : ℕ) (data : List α)
    (p : α → Bool) (size offset : ℤ) (seed : Option ℕ) (hsize : 1 ≤ size)
    (hoff : 0 ≤ offset) :
    ((okList (generate_sample g data (some (fun v => Except.ok (p v))) size seed offset)).length : ℤ)
      = min size (max 0 ((data.countP p : ℤ) - offset)) := by
  rw [generate_sample_pure g data p _ (fun v => rfl) size seed offset hsize]
  simp only [okList]
  rw [List.length_take, List.length_drop]
  have hperm : ((randPerm (match seed with
      | some s => seedState s
      | none => g) data).filter p).length = (data.filter p).length :=
    ((randPerm_perm _ data).filter p).length_eq
  rw [hperm, ← List.countP_eq_length_filter]
  omega

theorem sample_length_formula_witness :
    ((okList (generate_sample 0 [1, 2, 3] (some (fun v => Except.ok (v % 2 == 1))) 2 (some 7) 1)).length : ℤ)
      = min 2 (max 0 ((([1, 2, 3] : List ℕ).countP (fun v => v % 2 == 1) : ℤ) - 1)) :=
  sample_length_formula 0 [1, 2, 3] (fun v => v % 2 == 1) 2 1 (some 7)
    (by decide) (by decide)

/-- C4 counterexample: the claim quantifies over every size; with `size = 0`
(and `k = 0`) both windows are the same single-element sample, so an entry
appears in both although the matched population has at least `k + 2*size`
entries. -/
theorem sample_windows_not_disjoint_at_size_zero :
    (5 : ℕ) ∈ okList (generate_sample 0 [5] (some (fun _ => Except.ok true)) 0 (some 0) 0)
    ∧ (5 : ℕ) ∈ okList (generate_sample 0 [5] (some (fun _ => Except.ok true)) 0 (some 0) (0 + 0))
    ∧ ([5] : List ℕ).Nodup
    ∧ (0 + 2 * 0 : ℤ) ≤ ((([5] : List ℕ).countP (fun _ => true)) : ℤ) := by
  refine ⟨?_, ?_, ?_, ?_⟩ <;> decide

/-- C4 amended: for every supplied seed, pairwise-distinct source, size at
least 1 and offset k at least 0 such that at least `k + 2*size` source
entries satisfy the predicate, the samples at offsets k and k + size are
disjoint — both are consecutive windows of the same seed-determined
permutation of the matches. -/
theorem sample_windows_disjoint {α : Type} (g : ℕ) (data : List α)
    (p : α → Bool) (size k : ℤ) (s : ℕ) (hsize : 1 ≤ size) (hk : 0 ≤ k)
    (hnd : data.Nodup) (_hcount : k + 2 * size ≤ (data.countP p : ℤ)) :
    (okList (generate_sample g data (some (fun v => Except.ok (p v))) size (some s) k)).Disjoint
      (okList (generate_sample g data (some (fun v => Except.ok (p v))) size (some s) (k + size))) := by
  rw [generate_sample_pure g data p _ (fun v => rfl) size (some s) k hsize,
      generate_sample_pure g data p _ (fun v => rfl) size (some s) (k + size) hsize]
  simp only [okList]
  have hmnd : ((randPerm (seedState s) data).filter p).Nodup :=
    ((randPerm_perm (seedState s) data).symm.nodup hnd).filter p
  rw [show (k + size).toNat = k.toNat + size.toNat from by omega]
  intro x hx1 hx2
  exact take_drop_disjoint _ hmnd k.toNat size.toNat size.toNat x hx1 hx2

theorem sample_windows_disjoint_witness :
    (okList (generate_sample 0 [0, 1, 2, 3] (some (fun _ => Except.ok true)) 1 (some 3) 1)).Disjoint
      (okList (generate_sample 0 [0, 1, 2, 3] (some (fun _ => Except.ok true)) 1 (some 3) (1 + 1))) :=
  sample_windows_disjoint 0 [0, 1, 2, 3] (fun _ => true) 1 1 3
    (by decide) (by decide) (by decide) (by decide)

theorem retry_go_of_non200_prefix (resp : ℕ → HttpResponse) (count : ℕ) :
    ∀ (d i : ℕ), (∀ iv, i ≤ iv → iv < i + d → (resp iv).status ≠ 200) →
      i + d ≤ count → retry_go resp count i = retry_go resp count (i + d) := by
  intro d
  induction d with
  | zero => intro i _ _; rfl
  | succ n ih =>
    intro i h hle
    have hic : i < count := by omega
    rw [retry_go, dif_pos hic, if_neg (h i (Nat.le_refl i) (by omega))]
    rw [ih (i + 1) (fun iv h1 h2 => h iv (by omega) (by omega)) (by omega)]
    congr 1
    omega

/-- C6: classification of the retry loop.  A first response of status 200
with no errors array returns the parsed body after exactly one attempt; the
first 200 response (after any run of non-200 responses) whose errors array
is non-empty raises the fatal query error at once, surfacing the first error
message, after exactly j+1 attempts; and when every response is a transient
failure (non-200 — in particular non-429, which the loop treats the same way
apart from logging), the fatal request-failed outcome reporting the last
observed status and body text arrives after exactly `count` attempts
(`maxAttempts`, 10 by default), never fewer, never more. -/
theorem retry_request_classification (resp : ℕ → HttpResponse) (count j : ℕ) :
    ((resp 0).status = 200 → (resp 0).errors = none → 1 ≤ count →
        retry_request resp count = (.success (resp 0).body, 1))
    ∧ (j < count → (∀ i, i < j → (resp i).status ≠ 200) → (resp j).status = 200 →
        ∀ e es, (resp j).errors = some (e :: es) →
        retry_request resp count = (.queryError e, j + 1))
    ∧ ((∀ i, i < count → (resp i).status ≠ 200 ∧ (resp i).status ≠ 429) → 1 ≤ count →
        retry_request resp count
          = (.requestFailed (resp (count - 1)).status (resp (count - 1)).text, count)) := by
  refine ⟨?_, ?_, ?_⟩
  · intro h200 herr hc
    rw [retry_request, retry_go, dif_pos (by omega : 0 < count), if_pos h200, herr]
  · intro hj hbefore h200 e es herr
    rw [retry_request]
    rw [show retry_go resp count 0 = retry_go resp count j from by
      have := retry_go_of_non200_prefix resp count j 0
        (fun iv h1 h2 => hbefore iv (by omega)) (by omega)
      simpa using this]
    rw [retry_go, dif_pos hj, if_pos h200, herr]
  · intro hall hc
    rw [retry_request]
    rw [show retry_go resp count 0 = retry_go resp count count from by
      have := retry_go_of_non200_prefix resp count count 0
        (fun iv h1 h2 => (hall iv (by omega)).1) (by omega)
      simpa using this]
    rw [retry_go, dif_neg (by omega : ¬ count < count), if_neg (by omega : ¬ count = 0)]

theorem retry_request_classification_witness :
    retry_request respAllFail 10 = (.requestFailed 500 "boom", 10) :=
  (retry_request_classification respAllFail 10 0).2.2
    (fun i _ => ⟨by simp [respAllFail], by simp [respAllFail]⟩) (by decide)

theorem sample_dict_mem (source : List Media) (i : ℕ) (m : Media)
    (h : sample_dict source i = some m) : m ∈ source ∧ m.id = i := by
  simp only [sample_dict] at h
  have h1 := List.mem_of_find?_eq_some h
  have h2 := List.find?_some h
  exact ⟨List.mem_reverse.mp h1, by simpa using h2⟩

theorem mem_sample_data (source : List Media) (x : Option Media)
    (hx : x ∈ sample_data source) (m : Media) (hm : x = some m) :
    m ∈ source ∧ m.id < 1000000 := by
  subst hm
  simp only [sample_data, List.mem_map] at hx
  rcases hx with ⟨i, hi, hdict⟩
  rcases sample_dict_mem source i m hdict with ⟨hmem, hid⟩
  exact ⟨hmem, by rw [hid]; exact List.mem_range.mp hi⟩

/-- C2 counterexample: the claim states that the index space is sized to the
maximum identifier ever seen in the catalog and that every source entry —
also one with identifier at least 1000000 — is placed at its index and is
eligible for the sample.  The code builds `range(0, 1000000)` with a fixed
constant (source line 970) and never consults `_max_media_id`: sampling a
single-entry source whose id is 1000000 with an empty filter and ample size
returns the empty sample, so the entry was never placed. -/
theorem sample_set_drops_large_id :
    sample_set (fun _ => none) 0 [mBig] 10 0 (some 0) {} = .ok []
    ∧ mBig.id = 1000000 := by
  refine ⟨?_, rfl⟩
  have hfilt : ∀ om, create_filter (fun _ => none) {} om = Except.ok om.isSome := by
    intro om
    cases om with
    | none => rfl
    | some m => rfl
  have hdata_none : ∀ x ∈ sample_data [mBig], x = none := by
    intro x hx
    simp only [sample_data, List.mem_map] at hx
    rcases hx with ⟨i, hi, hdict⟩
    have hi2 := List.mem_range.mp hi
    rw [← hdict]
    have hne : (mBig.id == i) = false := by
      simp only [mBig, beq_eq_false_iff_ne, ne_eq]
      omega
    simp [sample_dict, hne]
  simp only [sample_set, generate_sample]
  rw [sampleLoop_pure Option.isSome (create_filter (fun _ => none) {}) hfilt 10 0]
  rw [sampleLoopP_eq_take_drop Option.isSome 10 0 (by omega)]
  have hfd : (sample_data [mBig]).filter (fun om => om.isSome) = [] :=
    List.filter_eq_nil_iff.mpr (fun a ha => by rw [hdata_none a ha]; simp)
  have hfs := (randPerm_perm (seedState 0) (sample_data [mBig])).filter
    (fun om => om.isSome)
  rw [hfd] at hfs
  rw [hfs.eq_nil]
  rfl

/-- C2 amended: `sample_set` builds a dense index space of the fixed size
1000000 — independent of the catalog and of the maximum identifier in it —
placing at each index i < 1000000 the source entry whose identifier is i (the
last one on duplicate ids, a hole otherwise); consequently every sampled
entry is a source entry with identifier strictly below 1000000, and a source
entry with a larger identifier is never eligible. -/
theorem sample_set_fixed_index_space (_media : ℕ → Option Media) (g : ℕ)
    (source : List Media) (size offset : ℤ) (seed : Option ℕ) (o : FilterOpts) :
    (sample_data source).length = 1000000
    ∧ (∀ i : Fin 1000000, (sample_data source)[(i : ℕ)]? = some (sample_dict source i))
    ∧ (okList (sample_set _media g source size offset seed o)).all
        (fun om => match om with
          | none => true
          | some m => decide (m ∈ source) && decide (m.id < 1000000)) = true := by
  refine ⟨by simp [sample_data], ?_, ?_⟩
  · intro i
    simp [sample_data, List.getElem?_map, List.getElem?_range i.isLt]
  · cases h : sample_set _media g source size offset seed o with
    | error e => rfl
    | ok out =>
      simp only [okList]
      rw [List.all_eq_true]
      intro x hx
      simp only [sample_set, generate_sample] at h
      have hsub := sampleLoop_subset _ size offset _ 0 [] out h x hx
      rcases hsub with h0 | hmem
      · simp at h0
      · have hdata : x ∈ sample_data source :=
          ((randPerm_perm _ (sample_data source)).mem_iff).mp hmem
        cases x with
        | none => rfl
        | some m =>
          rcases mem_sample_data source (some m) hdata m rfl with ⟨hmem2, hid⟩
          simp [hmem2, hid]
